import Mathlib

/-!
Verification of the bibliography-maintenance scripts `bin/add_previews.py`
(script 1) and `bin/fetch_scholar.py` (script 2).

Python strings are embedded as `List Char` (named `Str`). Line splitting is
modelled for LF line endings, which is what `splitlines` does on the files this
system manipulates. Network interaction is modelled by an explicit response
value per request: `Resp.exc` stands for a request that raised an exception
(timeout, connection error, decoding failure), `Resp.ok status body` for a
response that arrived with the given status code and payload.
-/

/-- Characters of the Python whitespace class used by `str.strip` and the
regex class which, for the inputs handled here, is its ASCII part. -/
def isPySpace (c : Char) : Bool :=
  c = ' ' || c = '\t' || c = '\n' || c = '\r' || c = '\x0b' || c = '\x0c'

abbrev Str := List Char

/-- Python `str.strip()`: drop whitespace from both ends. -/
def pyStrip (cs : Str) : Str :=
  ((cs.dropWhile isPySpace).reverse.dropWhile isPySpace).reverse

/-- Python `str.lower()` restricted to ASCII letters, the case the scripts
exercise (titles and URLs). -/
def pyLower (c : Char) : Char :=
  if 'A' ≤ c ∧ c ≤ 'Z' then Char.ofNat (c.toNat + 32) else c

/-- Value of a non-empty all-digit string, `none` on any other input. -/
def digitsToNatAux : Nat → Str → Option Nat
  | acc, [] => some acc
  | acc, c :: cs =>
    if c.isDigit then digitsToNatAux (acc * 10 + (c.toNat - 48)) cs else none

def digitsToNat (cs : Str) : Option Nat :=
  if cs = [] then none else digitsToNatAux 0 cs

/-- Python `int(s)` on a string: surrounding whitespace is ignored, an
optional sign precedes a non-empty digit run; any other shape raises, which
is modelled as `none`. -/
def pyInt (cs : Str) : Option Int :=
  match pyStrip cs with
  | '-' :: rest => (digitsToNat rest).map (fun n => -(n : Int))
  | '+' :: rest => (digitsToNat rest).map (fun n => (n : Int))
  | rest => (digitsToNat rest).map (fun n => (n : Int))

/-- Walk the text left to right; `inRun` records whether the previous
character belonged to a run of characters satisfying `p`. The first
character of each run becomes `rep`, subsequent run characters are
dropped. -/
def collapseRunsAux (p : Char → Bool) (rep : Char) : Bool → Str → Str
  | _, [] => []
  | inRun, c :: cs =>
    if p c then
      if inRun then collapseRunsAux p rep true cs
      else rep :: collapseRunsAux p rep true cs
    else c :: collapseRunsAux p rep false cs

/-- `re.sub` of a one-character-class run by a single replacement character:
every maximal run of characters satisfying `p` becomes one `rep`. -/
def collapseRuns (p : Char → Bool) (rep : Char) (cs : Str) : Str :=
  collapseRunsAux p rep false cs

/-- Python `s.startswith(pre)`. -/
def startsWithStr (pre s : Str) : Bool := s.take pre.length == pre

/-- Python `pat in s` (substring containment). -/
def containsStr (s pat : Str) : Bool :=
  match s with
  | [] => pat == []
  | _ :: cs => startsWithStr pat s || containsStr cs pat

/-- Split on newline characters, `str.splitOn`-style: the result always has
one more piece than there are newlines. -/
def lineSplit : Str → List Str
  | [] => [[]]
  | c :: cs =>
    if c = '\n' then [] :: lineSplit cs
    else
      match lineSplit cs with
      | [] => [[c]]
      | l :: ls => (c :: l) :: ls

/-- Join lines with single newline characters, the model of `"\n".join`. -/
def joinNl : List Str → Str
  | [] => []
  | [l] => l
  | l :: ls => l ++ '\n' :: joinNl ls

/-- Python `str.splitlines()` for LF-terminated text: like `lineSplit`, but a
trailing newline does not contribute a final empty line, and the empty string
has no lines. -/
def pySplitlines (cs : Str) : List Str :=
  if (lineSplit cs).getLast? = some [] then (lineSplit cs).dropLast else lineSplit cs

theorem lineSplit_ne_nil (cs : Str) : lineSplit cs ≠ [] := by
  cases cs with
  | nil => simp [lineSplit]
  | cons c cs =>
    simp only [lineSplit]
    split
    · simp
    · cases h : lineSplit cs <;> simp

theorem joinNl_cons_cons (l m : Str) (ls : List Str) :
    joinNl (l :: m :: ls) = l ++ '\n' :: joinNl (m :: ls) := rfl

theorem lineSplit_newline (cs : Str) :
    lineSplit ('\n' :: cs) = [] :: lineSplit cs := by
  simp [lineSplit]

theorem lineSplit_other (c : Char) (cs : Str) (l : Str) (ls : List Str)
    (hc : c ≠ '\n') (h : lineSplit cs = l :: ls) :
    lineSplit (c :: cs) = (c :: l) :: ls := by
  simp only [lineSplit, if_neg hc, h]

theorem joinNl_lineSplit (cs : Str) : joinNl (lineSplit cs) = cs := by
  induction cs with
  | nil => rfl
  | cons c cs ih =>
    by_cases hc : c = '\n'
    · subst hc
      rw [lineSplit_newline]
      cases h : lineSplit cs with
      | nil => exact absurd h (lineSplit_ne_nil cs)
      | cons l ls =>
        rw [h] at ih
        rw [joinNl_cons_cons]
        simp [ih]
    · cases h : lineSplit cs with
      | nil => exact absurd h (lineSplit_ne_nil cs)
      | cons l ls =>
        rw [h] at ih
        rw [lineSplit_other c cs l ls hc h]
        cases ls with
        | nil => simpa [joinNl] using congrArg (c :: ·) ih
        | cons m ls' =>
          rw [joinNl_cons_cons] at ih ⊢
          simp [← ih]

theorem joinNl_append_nil (q : List Str) (hq : q ≠ []) :
    joinNl (q ++ [[]]) = joinNl q ++ ['\n'] := by
  induction q with
  | nil => exact absurd rfl hq
  | cons l ls ih =>
    cases ls with
    | nil => rfl
    | cons m ls' =>
      have h1 : (l :: m :: ls') ++ [[]] = l :: m :: (ls' ++ [[]]) := rfl
      have h2 : m :: (ls' ++ [[]]) = (m :: ls') ++ [[]] := rfl
      rw [h1, joinNl_cons_cons, h2, ih (by simp), joinNl_cons_cons]
      simp

/-- Reconstruction: the splitlines model loses at most one trailing newline,
and joining the lines back is a prefix of the original text. -/
theorem joinNl_pySplitlines (cs : Str) :
    joinNl (pySplitlines cs) = cs ∨ joinNl (pySplitlines cs) ++ ['\n'] = cs := by
  unfold pySplitlines
  by_cases h : (lineSplit cs).getLast? = some []
  · rw [if_pos h]
    have hsplit : (lineSplit cs).dropLast ++ [[]] = lineSplit cs :=
      List.dropLast_append_getLast? [] (Option.mem_def.mpr h)
    cases hq : (lineSplit cs).dropLast with
    | nil =>
      left
      have h1 : lineSplit cs = [[]] := by rw [← hsplit, hq]; rfl
      have h2 := joinNl_lineSplit cs
      rw [h1] at h2
      have h3 : cs = [] := by simpa [joinNl] using h2.symm
      rw [h3]; rfl
    | cons l ls =>
      right
      have hj := joinNl_lineSplit cs
      rw [← hsplit, joinNl_append_nil _ (by rw [hq]; simp)] at hj
      rw [← hq, hj]
  · rw [if_neg h]
    left
    exact joinNl_lineSplit cs

/-- Joining a prefix of the lines yields a prefix of the joined text. -/
theorem joinNl_take_prefix (ps : List Str) (k : Nat) :
    ∃ t : Str, joinNl (ps.take k) ++ t = joinNl ps := by
  induction ps generalizing k with
  | nil => exact ⟨[], by simp [joinNl]⟩
  | cons l ls ih =>
    cases k with
    | zero => exact ⟨joinNl (l :: ls), by simp [joinNl]⟩
    | succ k =>
      cases ls with
      | nil => exact ⟨[], by simp [joinNl]⟩
      | cons m ls' =>
        cases k with
        | zero =>
          refine ⟨'\n' :: joinNl (m :: ls'), ?_⟩
          simp [joinNl_cons_cons, joinNl]
        | succ k' =>
          obtain ⟨t, ht⟩ := ih (k' + 1)
          refine ⟨t, ?_⟩
          have htake : (l :: m :: ls').take (k' + 1 + 1) = l :: (m :: ls').take (k' + 1) := rfl
          rw [htake, joinNl_cons_cons]
          have : (m :: ls').take (k' + 1) = m :: ls'.take k' := rfl
          rw [this] at ht ⊢
          rw [joinNl_cons_cons, List.append_assoc, List.cons_append]
          have h2 : joinNl (m :: ls'.take k') ++ t = joinNl (m :: ls') := ht
          rw [h2]

/-! ## HTTP and HTML model shared by both scripts -/

/-- Outcome of one `requests.get` call: either the call raised (timeout,
connection error, malformed response, any exception) or a response with a
status code and a parsed body arrived. -/
inductive Resp (β : Type) where
  | exc : Resp β
  | ok (status : Int) (body : β) : Resp β

/-- One `<meta>` tag of the fetched document, as BeautifulSoup exposes it:
an optional `property` attribute, an optional `name` attribute, and an
optional `content` attribute. The document is the list of its meta tags in
document order; `soup.find` returns the first tag whose attribute matches. -/
structure MetaTag where
  property : Option Str
  nameAttr : Option Str
  content : Option Str
deriving DecidableEq

/-- `soup.find("meta", property=p)`. -/
def findByProperty (doc : List MetaTag) (p : Str) : Option MetaTag :=
  doc.find? (fun t => decide (t.property = some p))

/-- `soup.find("meta", attrs={"name": n})` (the attrs dictionary selects on
the name attribute). -/
def findByNameAttr (doc : List MetaTag) (n : Str) : Option MetaTag :=
  doc.find? (fun t => decide (t.nameAttr = some n))

/-- One iteration of the scripts' meta-tag loops over `property` selectors:
`tag = soup.find("meta", property=prop); if tag and tag.get("content"):
return tag["content"].strip()`. `none` means the loop continues. -/
def tryProperty (doc : List MetaTag) (p : Str) : Option Str :=
  match findByProperty doc p with
  | some t =>
    match t.content with
    | some c => if c = [] then none else some (pyStrip c)
    | none => none
  | none => none

/-- Same for the `name=` fallback loop of script 1. -/
def tryNameAttr (doc : List MetaTag) (n : Str) : Option Str :=
  match findByNameAttr doc n with
  | some t =>
    match t.content with
    | some c => if c = [] then none else some (pyStrip c)
    | none => none
  | none => none

namespace AddPreviews

/-- `discover_thumbnail_url` of `bin/add_previews.py` (lines 22-45): on a
raised request or a non-200 status, `None`; otherwise the `property` loop
over og:image, twitter:image, og:image:url, then the `name` loop over
twitter:image, image. -/
def discover_thumbnail_url (r : Resp (List MetaTag)) : Option Str :=
  match r with
  | .exc => none
  | .ok status doc =>
    if status ≠ 200 then none
    else
      match tryProperty doc ("og:image".data) with
      | some c => some c
      | none =>
      match tryProperty doc ("twitter:image".data) with
      | some c => some c
      | none =>
      match tryProperty doc ("og:image:url".data) with
      | some c => some c
      | none =>
      match tryNameAttr doc ("twitter:image".data) with
      | some c => some c
      | none => tryNameAttr doc ("image".data)

/-- `download_image` of `bin/add_previews.py` (lines 48-64). The result is
the returned boolean together with the file the call created at the
destination path (`none` when no file was opened): on a raised request or a
non-200 status the function returns `False` before `open` runs; on a 200
response the non-empty chunks of the body are written. -/
def download_image (r : Resp (List (List Nat))) : Bool × Option (List Nat) :=
  match r with
  | .exc => (false, none)
  | .ok status chunks =>
    if status ≠ 200 then (false, none)
    else (true, some (chunks.filter (fun c => decide (c ≠ []))).flatten)

end AddPreviews

namespace FetchScholar

/-- `discover_thumbnail_url` of `bin/fetch_scholar.py` (lines 74-87): same
shape as script 1's, but with only the three `property` selectors and no
`name` fallback loop. -/
def discover_thumbnail_url (r : Resp (List MetaTag)) : Option Str :=
  match r with
  | .exc => none
  | .ok status doc =>
    if status ≠ 200 then none
    else
      match tryProperty doc ("og:image".data) with
      | some c => some c
      | none =>
      match tryProperty doc ("twitter:image".data) with
      | some c => some c
      | none => tryProperty doc ("og:image:url".data)

end FetchScholar

/-! ## The priority search described by the specification -/

/-- A meta-tag selector: match on the `property` attribute or on the `name`
attribute. -/
inductive Selector where
  | byProperty (p : Str)
  | byName (n : Str)

/-- Result of one selector: the first tag of the document it matches, when
that tag carries a non-empty content attribute, trimmed. -/
def selectorTry (doc : List MetaTag) : Selector → Option Str
  | .byProperty p => tryProperty doc p
  | .byName n => tryNameAttr doc n

/-- The spec's search: walk the selector list in priority order; for each
selector take the first matching tag, and if it carries a non-empty content
attribute return that content trimmed of surrounding whitespace; otherwise
move on; if the list is exhausted, report no thumbnail. -/
def searchSelectors (doc : List MetaTag) : List Selector → Option Str
  | [] => none
  | s :: rest =>
    match selectorTry doc s with
    | some c => some c
    | none => searchSelectors doc rest

/-- The five selectors of the claimed priority order. -/
def selectorChainFull : List Selector :=
  [.byProperty ("og:image".data), .byProperty ("twitter:image".data),
   .byProperty ("og:image:url".data), .byName ("twitter:image".data),
   .byName ("image".data)]

/-- The three property selectors script 2 actually searches. -/
def selectorChainProperties : List Selector :=
  [.byProperty ("og:image".data), .byProperty ("twitter:image".data),
   .byProperty ("og:image:url".data)]

/-! ## Script 1: entries and the main loop -/

/-- A parsed bibliography entry: the field dictionary bibtexparser produces
(the citation key is the "ID" field). -/
abbrev Entry := List (Str × Str)

/-- `entry.get(k)`: value of field `k`, `None` if absent. -/
def fieldGet (e : Entry) (k : Str) : Option Str :=
  (e.find? (fun kv => decide (kv.1 = k))).map (fun kv => kv.2)

/-- Python truthiness of `entry.get(k)`: a present, non-empty value. -/
def truthyOpt (o : Option Str) : Option Str :=
  match o with
  | some v => if v = [] then none else some v
  | none => none

/-- `entry[k] = v`: overwrite the field in place, or append it. -/
def fieldSet (e : Entry) (k v : Str) : Entry :=
  if (e.find? (fun kv => decide (kv.1 = k))).isSome then
    e.map (fun kv => if kv.1 = k then (kv.1, v) else kv)
  else e ++ [(k, v)]

/-- The network as seen by one run of script 1: the response each page URL
would produce and the response each image URL would produce. -/
structure Net where
  pages : Str → Resp (List MetaTag)
  images : Str → Resp (List (List Nat))

/-- Record of the HTTP requests one loop iteration issued. -/
inductive NetCall where
  | page (url : Str)
  | image (url : Str)
deriving DecidableEq

namespace AddPreviews

/-- Extension choice of `bin/add_previews.py` lines 117-121. -/
def extOf (thumb : Str) : Str :=
  if containsStr (thumb.map pyLower) (".png".data) then ".png".data
  else if containsStr (thumb.map pyLower) (".gif".data) then ".gif".data
  else ".jpg".data

/-- One iteration of the entry loop of `bin/add_previews.py` (lines 94-130):
the resulting entry and the network calls issued. No url/doi, or an already
truthy preview field, skips the entry; otherwise a doi-shaped locator is
normalized, the thumbnail is discovered, and on a successful download the
preview field is set. -/
def processEntry (net : Net) (e : Entry) : Entry × List NetCall :=
  let key := (fieldGet e ("ID".data)).getD ("unknown".data)
  match truthyOpt (fieldGet e ("url".data)) <|> truthyOpt (fieldGet e ("doi".data)) with
  | none => (e, [])
  | some url =>
    match truthyOpt (fieldGet e ("preview".data)) with
    | some _ => (e, [])
    | none =>
      let url1 := if startsWithStr ("10.".data) url
                  then ("https://doi.org/".data) ++ url else url
      match discover_thumbnail_url (net.pages url1) with
      | none => (e, [.page url1])
      | some thumb =>
        let dest := key ++ extOf thumb
        if (download_image (net.images thumb)).1 then
          (fieldSet e ("preview".data) (("pub_preview/".data) ++ dest),
           [.page url1, .image thumb])
        else (e, [.page url1, .image thumb])

/-- The whole entry loop: each entry is processed independently; a failure
on one entry never stops the loop. -/
def processEntries (net : Net) (es : List Entry) : List (Entry × List NetCall) :=
  es.map (fun e => processEntry net e)

/-- The front-matter delimiter. -/
def marker : Str := "---".data

/-- The closing-delimiter scan of `bin/add_previews.py` lines 78-82:
`end_idx = 1`, then the first line index `i ≥ 1` whose stripped text is the
marker. -/
def findCloseAux : Nat → List Str → Nat
  | _, [] => 1
  | i, l :: ls => if pyStrip l = marker then i else findCloseAux (i + 1) ls

def end_idx (lines : List Str) : Nat := findCloseAux 1 (lines.drop 1)

/-- Is front matter present (line 76): the file has a first line and that
line, stripped of surrounding whitespace, equals the marker. -/
def hasFront (raw : Str) : Bool :=
  match pySplitlines raw with
  | [] => false
  | l0 :: _ => decide (pyStrip l0 = marker)

/-- The text handed to the bibliography parser (lines 74-85): everything
after the closing delimiter when front matter is present, the whole text
otherwise. -/
def bib_text (raw : Str) : Str :=
  if hasFront raw then
    joinNl ((pySplitlines raw).drop (end_idx (pySplitlines raw) + 1))
  else raw

/-- The captured front-matter block (line 140): the lines up to and
including the closing delimiter, rejoined. -/
def front_block (raw : Str) : Str :=
  joinNl ((pySplitlines raw).take (end_idx (pySplitlines raw) + 1))

/-- The file text written back (lines 132-144), with the parse-process-
serialize pipeline on the bibliography portion abstracted as `process`:
when front matter was captured it is re-prepended, followed by a blank
line. -/
def rewriteText (process : Str → Str) (raw : Str) : Str :=
  if hasFront raw then
    (front_block raw ++ ("\n\n".data)) ++ process (bib_text raw)
  else process raw

end AddPreviews

/-! ## Script 2: key synthesis, publication fetch, sorting -/

namespace FetchScholar

/-- Characters kept by `re.sub(r"[^a-z0-9\-\s]", "", text)`. -/
def isSlugKeep (c : Char) : Bool :=
  (decide ('a' ≤ c) && decide (c ≤ 'z')) ||
  (decide ('0' ≤ c) && decide (c ≤ '9')) ||
  c = '-' || isPySpace c

/-- `slugify` of `bin/fetch_scholar.py` (lines 19-24): strip, lower-case,
drop characters outside `[a-z0-9-\s]`, collapse whitespace runs to single
hyphens, collapse hyphen runs, truncate to 80 characters. -/
def slugify (text : Str) : Str :=
  let t1 := (pyStrip text).map pyLower
  let t2 := t1.filter isSlugKeep
  let t3 := collapseRuns isPySpace '-' t2
  let t4 := collapseRuns (fun c => c = '-') '-' t3
  t4.take 80

/-- Word characters of the regex `\w` (ASCII part, which is what citation
keys use). -/
def isWordChar (c : Char) : Bool :=
  (decide ('a' ≤ c) && decide (c ≤ 'z')) ||
  (decide ('A' ≤ c) && decide (c ≤ 'Z')) ||
  (decide ('0' ≤ c) && decide (c ≤ '9')) || c = '_'

/-- Attempt of `re.search(r"@\w+\{([^,]+)", bibtex)` at one position: an `@`
followed by a non-empty run of word characters, a brace, and a non-empty
captured run of non-comma characters. -/
def matchKeyAt : Str → Option Str
  | '@' :: rest =>
    if rest.takeWhile isWordChar = [] then none
    else
      match rest.dropWhile isWordChar with
      | '{' :: rest2 =>
        let g := rest2.takeWhile (fun c => decide (c ≠ ','))
        if g = [] then none else some g
      | _ => none
  | _ => none

/-- `re.search` scans every start position left to right. -/
def searchKeyMatch : Str → Option Str
  | [] => none
  | c :: cs =>
    match matchKeyAt (c :: cs) with
    | some g => some g
    | none => searchKeyMatch cs

/-- `parse_bibtex_key` of `bin/fetch_scholar.py` (lines 64-71): the matched
key if the pattern matches, otherwise the slugified title with `-{year}`
appended when the fallback year is truthy. -/
def parse_bibtex_key (bibtex fallback_title : Str) (fallback_year : Option Str) : Str :=
  match searchKeyMatch bibtex with
  | some g => g
  | none =>
    let base := slugify fallback_title
    match fallback_year with
    | some y => if y = [] then base else base ++ '-' :: y
    | none => base

/-- `fetch_publications` of `bin/fetch_scholar.py` (lines 49-61), with
`scholarly.fill` abstracted as an oracle (`none` models the call raising,
upon which the publication is skipped). Returns the filled publications and
the number of per-publication detail retrievals attempted. The loop index
`i` counts every iteration; the loop breaks when `max_pubs` is truthy
(non-`None` and non-zero) and `i >= max_pubs`. -/
def fetchAux {α : Type} (fill : α → Option α) (max_pubs : Option Int) :
    Nat → List α → List α × Nat
  | _, [] => ([], 0)
  | i, p :: ps =>
    if (match max_pubs with
        | some m => decide (m ≠ 0) && decide (m ≤ (i : Int))
        | none => false) then ([], 0)
    else
      let rest := fetchAux fill max_pubs (i + 1) ps
      match fill p with
      | some q => (q :: rest.1, rest.2 + 1)
      | none => (rest.1, rest.2 + 1)

def fetch_publications {α : Type} (fill : α → Option α) (max_pubs : Option Int)
    (pubs : List α) : List α :=
  (fetchAux fill max_pubs 0 pubs).1

/-- Number of `scholarly.fill(pub)` attempts the loop makes. -/
def fetch_calls {α : Type} (fill : α → Option α) (max_pubs : Option Int)
    (pubs : List α) : Nat :=
  (fetchAux fill max_pubs 0 pubs).2

/-- The tuple `(year or "0000", bibtex, key)` collected at line 177. -/
abbrev BibTuple := Str × Str × Str

/-- Python `year or "0000"` on the optional year field. -/
def yearOrDefault (year : Option Str) : Str :=
  match year with
  | some y => if y = [] then "0000".data else y
  | none => "0000".data

def bibTuple (year : Option Str) (bibtex key : Str) : BibTuple :=
  (yearOrDefault year, bibtex, key)

/-- `_sort_key` of `bin/fetch_scholar.py` (lines 180-185): the negated
integer year, and 0 when `int(y)` raises. -/
def _sort_key (t : BibTuple) : Int :=
  match pyInt t.1 with
  | some n => -n
  | none => 0

/-- The comparison `bib_entries.sort(key=_sort_key)` sorts by. -/
def yearRel (a b : BibTuple) : Prop := _sort_key a ≤ _sort_key b

instance : DecidableRel yearRel :=
  fun a b => inferInstanceAs (Decidable (_sort_key a ≤ _sort_key b))

instance : IsTotal BibTuple yearRel :=
  ⟨fun a b => Int.le_total (_sort_key a) (_sort_key b)⟩

instance : IsTrans BibTuple yearRel := ⟨fun _ _ _ h1 h2 => le_trans h1 h2⟩

/-- `bib_entries.sort(key=_sort_key)` (line 187). Python's sort is the
stable sort by this key; insertion sort is stable, and the sortedness and
stability theorems below pin the output down to exactly the behaviour
Python guarantees. -/
def sortEntries (l : List BibTuple) : List BibTuple :=
  List.insertionSort yearRel l

end FetchScholar

/-! ## Claims -/

/-- Claim C8: for every page URL, the Thumbnail Discoverer of either script
never raises to its caller: when the request raises (timeout, connection
error, malformed response) or the response status is not success, it returns
the no-thumbnail result (`none`). -/
theorem discover_error_returns_none (st : Int) (doc : List MetaTag) (h : st ≠ 200) :
    AddPreviews.discover_thumbnail_url Resp.exc = none ∧
    AddPreviews.discover_thumbnail_url (Resp.ok st doc) = none ∧
    FetchScholar.discover_thumbnail_url Resp.exc = none ∧
    FetchScholar.discover_thumbnail_url (Resp.ok st doc) = none := by
  refine ⟨rfl, ?_, rfl, ?_⟩
  · simp [AddPreviews.discover_thumbnail_url, h]
  · simp [FetchScholar.discover_thumbnail_url, h]

/-- Witness for C8 at status 404 and the empty document. -/
theorem discover_error_returns_none_witness :
    (404 : Int) ≠ 200 ∧
    (AddPreviews.discover_thumbnail_url Resp.exc = none ∧
     AddPreviews.discover_thumbnail_url (Resp.ok 404 []) = none ∧
     FetchScholar.discover_thumbnail_url Resp.exc = none ∧
     FetchScholar.discover_thumbnail_url (Resp.ok 404 []) = none) :=
  ⟨by decide, discover_error_returns_none 404 [] (by decide)⟩

theorem fetchAux_calls_le {α : Type} (fill : α → Option α) (n : Int) (hn : 1 ≤ n)
    (ps : List α) : ∀ i : Nat, (FetchScholar.fetchAux fill (some n) i ps).2 ≤ n.toNat - i := by
  induction ps with
  | nil => intro i; simp [FetchScholar.fetchAux]
  | cons p ps ih =>
    intro i
    unfold FetchScholar.fetchAux
    by_cases hb : (decide (n ≠ 0) && decide (n ≤ (i : Int))) = true
    · rw [if_pos hb]; simp
    · rw [if_neg hb]
      have hi : (i : Int) < n := by
        by_contra hle
        push_neg at hle
        apply hb
        simp only [Bool.and_eq_true, decide_eq_true_eq]
        exact ⟨by omega, hle⟩
      have := ih (i + 1)
      cases hf : fill p <;> simp only [hf] <;> omega

theorem fetchAux_length_le {α : Type} (fill : α → Option α) (mp : Option Int)
    (ps : List α) : ∀ i : Nat,
    (FetchScholar.fetchAux fill mp i ps).1.length ≤ (FetchScholar.fetchAux fill mp i ps).2 := by
  induction ps with
  | nil => intro i; simp [FetchScholar.fetchAux]
  | cons p ps ih =>
    intro i
    unfold FetchScholar.fetchAux
    split
    · simp
    · have := ih (i + 1)
      cases hf : fill p <;> simp only [hf, List.length_cons] <;> omega

theorem fetchAux_zero_eq_none {α : Type} (fill : α → Option α)
    (ps : List α) : ∀ i : Nat,
    FetchScholar.fetchAux fill (some 0) i ps = FetchScholar.fetchAux fill none i ps := by
  induction ps with
  | nil => intro i; rfl
  | cons p ps ih =>
    intro i
    unfold FetchScholar.fetchAux
    simp [ih (i + 1)]

/-- Claim C9 (amended): for every positive maximum-publication count N the
publication fetch attempts per-publication detail retrieval for at most N
publications (and returns at most that many); a maximum of 0, however, is
falsy in the loop guard `if max_pubs and i >= max_pubs` and behaves exactly
like no maximum at all, so the bound does not hold for N = 0. -/
theorem fetch_publications_bound {α : Type} (fill : α → Option α) (pubs : List α)
    (n : Int) (hn : 1 ≤ n) :
    FetchScholar.fetch_calls fill (some n) pubs ≤ n.toNat ∧
    (FetchScholar.fetch_publications fill (some n) pubs).length ≤
      FetchScholar.fetch_calls fill (some n) pubs ∧
    FetchScholar.fetch_calls fill (some 0) pubs = FetchScholar.fetch_calls fill none pubs := by
  refine ⟨?_, ?_, ?_⟩
  · have := fetchAux_calls_le fill n hn pubs 0
    simpa [FetchScholar.fetch_calls] using this
  · exact fetchAux_length_le fill (some n) pubs 0
  · unfold FetchScholar.fetch_calls
    rw [fetchAux_zero_eq_none fill pubs 0]

/-- Witness for C9 (amended) at N = 2 over three publications. -/
theorem fetch_publications_bound_witness :
    (1 ≤ (2 : Int)) ∧
    (FetchScholar.fetch_calls (fun p : Nat => some p) (some 2) [7, 8, 9] ≤ (2 : Int).toNat ∧
     (FetchScholar.fetch_publications (fun p : Nat => some p) (some 2) [7, 8, 9]).length ≤
       FetchScholar.fetch_calls (fun p : Nat => some p) (some 2) [7, 8, 9] ∧
     FetchScholar.fetch_calls (fun p : Nat => some p) (some 0) [7, 8, 9] =
       FetchScholar.fetch_calls (fun p : Nat => some p) none [7, 8, 9]) :=
  ⟨by decide, fetch_publications_bound (fun p : Nat => some p) [7, 8, 9] 2 (by decide)⟩

/-- Counterexample to claim C9 as stated: with maximum count N = 0 and a
one-publication list, the loop guard `if max_pubs and i >= max_pubs` is
falsy, so one detail retrieval is attempted — more than the claimed
maximum of zero. -/
theorem fetch_publications_zero_counterexample :
    FetchScholar.fetch_calls (fun p : Nat => some p) (some 0) [7] = 1 ∧
    ¬ FetchScholar.fetch_calls (fun p : Nat => some p) (some 0) [7] ≤ 0 := by
  decide

/-- Claim C10: in script 1, when the selected url/doi value of an entry
starts with "10." it is normalized by prefixing "https://doi.org/" before
thumbnail discovery, and otherwise used unchanged, so the first network call
of the iteration fetches exactly the normalized page URL. -/
theorem doi_prefix_normalization (net : Net) (e : Entry) (v : Str)
    (hsel : (truthyOpt (fieldGet e ("url".data)) <|> truthyOpt (fieldGet e ("doi".data))) =
      some v)
    (hprev : truthyOpt (fieldGet e ("preview".data)) = none) :
    (AddPreviews.processEntry net e).2.head? =
      some (NetCall.page (if startsWithStr ("10.".data) v
                          then ("https://doi.org/".data) ++ v else v)) := by
  unfold AddPreviews.processEntry
  rw [hsel, hprev]
  dsimp only
  split
  · rfl
  · split <;> rfl

/-- Witness for C10 on an entry whose doi field is "10.1/ab". -/
theorem doi_prefix_normalization_witness :
    ((truthyOpt (fieldGet [(("doi".data), ("10.1/ab".data))] ("url".data)) <|>
       truthyOpt (fieldGet [(("doi".data), ("10.1/ab".data))] ("doi".data))) =
      some ("10.1/ab".data)) ∧
    truthyOpt (fieldGet [(("doi".data), ("10.1/ab".data))] ("preview".data)) = none ∧
    (AddPreviews.processEntry ⟨fun _ => Resp.exc, fun _ => Resp.exc⟩
        [(("doi".data), ("10.1/ab".data))]).2.head? =
      some (NetCall.page (if startsWithStr ("10.".data) ("10.1/ab".data)
                          then ("https://doi.org/".data) ++ ("10.1/ab".data)
                          else ("10.1/ab".data))) :=
  ⟨by decide, by decide,
   doi_prefix_normalization ⟨fun _ => Resp.exc, fun _ => Resp.exc⟩
     [(("doi".data), ("10.1/ab".data))] ("10.1/ab".data) (by decide) (by decide)⟩

/-- Claim C6 (amended): for every entry whose preview field is present and
non-empty, script 1 attempts no thumbnail discovery and no image download
(no network call) and leaves the entry, hence the preview value, unchanged.
An entry whose preview field is present but empty is falsy at the
`if entry.get("preview")` check, so it is re-fetched — the claim does not
hold for it. -/
theorem preview_present_skipped (net : Net) (e : Entry) (v : Str)
    (hv : fieldGet e ("preview".data) = some v) (hne : v ≠ []) :
    AddPreviews.processEntry net e = (e, []) := by
  unfold AddPreviews.processEntry
  have htr : truthyOpt (fieldGet e ("preview".data)) = some v := by
    rw [hv]; simp [truthyOpt, hne]
  cases hsel : truthyOpt (fieldGet e ("url".data)) <|> truthyOpt (fieldGet e ("doi".data)) with
  | none => simp
  | some u => simp [htr]

/-- Witness for C6 (amended) on an entry with a non-empty preview and a url. -/
theorem preview_present_skipped_witness :
    fieldGet [(("preview".data), ("pub_preview/a.jpg".data)),
              (("url".data), ("http://x".data))] ("preview".data) =
      some ("pub_preview/a.jpg".data) ∧
    ("pub_preview/a.jpg".data) ≠ ([] : Str) ∧
    AddPreviews.processEntry ⟨fun _ => Resp.ok 200 [], fun _ => Resp.ok 200 []⟩
        [(("preview".data), ("pub_preview/a.jpg".data)),
         (("url".data), ("http://x".data))] =
      ([(("preview".data), ("pub_preview/a.jpg".data)),
        (("url".data), ("http://x".data))], []) :=
  ⟨by decide, by decide,
   preview_present_skipped ⟨fun _ => Resp.ok 200 [], fun _ => Resp.ok 200 []⟩
     [(("preview".data), ("pub_preview/a.jpg".data)),
      (("url".data), ("http://x".data))] ("pub_preview/a.jpg".data)
     (by decide) (by decide)⟩

/-- Counterexample to claim C6 as stated: an entry that has a preview field
with the empty value (and a url) is not skipped — the loop issues a
thumbnail-discovery network call for it. -/
theorem preview_empty_field_refetched :
    fieldGet [(("url".data), ("http://x".data)), (("preview".data), [])] ("preview".data) =
      some [] ∧
    (AddPreviews.processEntry ⟨fun _ => Resp.exc, fun _ => Resp.exc⟩
        [(("url".data), ("http://x".data)), (("preview".data), [])]).2 ≠ [] := by
  decide

theorem processEntry_fst_of_download_failed (net : Net) (e : Entry)
    (hfail : ∀ u, (AddPreviews.download_image (net.images u)).1 = false) :
    (AddPreviews.processEntry net e).1 = e := by
  unfold AddPreviews.processEntry
  split
  · rfl
  · split
    · rfl
    · split
      all_goals
        dsimp only
        split
        · rfl
        · split
          · next hdl => simp [hfail] at hdl
          · rfl

/-- Claim C7: a non-success download response makes the Image Fetcher return
failure without creating any file at the destination; in script 1's loop a
failed download leaves the preview field of the entry absent, and the loop
processes every other entry regardless. -/
theorem download_failure_no_file (st : Int) (chunks : List (List Nat)) (net : Net)
    (e : Entry) (es1 es2 : List Entry)
    (hst : st ≠ 200)
    (hprev : fieldGet e ("preview".data) = none)
    (hfail : ∀ u, (AddPreviews.download_image (net.images u)).1 = false) :
    AddPreviews.download_image (Resp.ok st chunks) = (false, none) ∧
    fieldGet (AddPreviews.processEntry net e).1 ("preview".data) = none ∧
    AddPreviews.processEntries net (es1 ++ es2) =
      AddPreviews.processEntries net es1 ++ AddPreviews.processEntries net es2 := by
  refine ⟨?_, ?_, ?_⟩
  · simp [AddPreviews.download_image, hst]
  · rw [processEntry_fst_of_download_failed net e hfail, hprev]
  · unfold AddPreviews.processEntries
    exact List.map_append _ es1 es2

/-- Witness for C7: an exception-raising image endpoint, a 404 download, and
a two-part entry list. -/
theorem download_failure_no_file_witness :
    (404 : Int) ≠ 200 ∧
    fieldGet [(("url".data), ("http://x".data))] ("preview".data) = none ∧
    (∀ u, (AddPreviews.download_image
        ((⟨fun _ => Resp.ok 200 [⟨some ("og:image".data), none, some ("t.jpg".data)⟩],
           fun _ => Resp.exc⟩ : Net).images u)).1 = false) ∧
    (AddPreviews.download_image (Resp.ok 404 [[1, 2]]) = (false, none) ∧
     fieldGet (AddPreviews.processEntry
         ⟨fun _ => Resp.ok 200 [⟨some ("og:image".data), none, some ("t.jpg".data)⟩],
          fun _ => Resp.exc⟩
         [(("url".data), ("http://x".data))]).1 ("preview".data) = none ∧
     AddPreviews.processEntries
         ⟨fun _ => Resp.ok 200 [⟨some ("og:image".data), none, some ("t.jpg".data)⟩],
          fun _ => Resp.exc⟩ ([[(("url".data), ("http://x".data))]] ++ [[]]) =
       AddPreviews.processEntries
         ⟨fun _ => Resp.ok 200 [⟨some ("og:image".data), none, some ("t.jpg".data)⟩],
          fun _ => Resp.exc⟩ [[(("url".data), ("http://x".data))]] ++
       AddPreviews.processEntries
         ⟨fun _ => Resp.ok 200 [⟨some ("og:image".data), none, some ("t.jpg".data)⟩],
          fun _ => Resp.exc⟩ [[]]) :=
  ⟨by decide, by decide, fun u => rfl,
   download_failure_no_file 404 [[1, 2]]
     ⟨fun _ => Resp.ok 200 [⟨some ("og:image".data), none, some ("t.jpg".data)⟩],
      fun _ => Resp.exc⟩
     [(("url".data), ("http://x".data))] [[(("url".data), ("http://x".data))]] [[]]
     (by decide) (by decide) (fun u => rfl)⟩

/-- Claim C1 (amended): on a successfully fetched document, script 1's
Thumbnail Discoverer performs exactly the claimed priority search over the
five selectors (property og:image, twitter:image, og:image:url, then name
twitter:image, image), returning the first matching tag's non-empty content
attribute trimmed of surrounding whitespace and the no-thumbnail result when
none yields one; script 2's Thumbnail Discoverer, however, searches only the
three property selectors, with no name-attribute fallback. On a document
carrying both og:image and twitter:image with different URLs, both return
the og:image value. -/
theorem thumbnail_priority_order (doc : List MetaTag) :
    AddPreviews.discover_thumbnail_url (Resp.ok 200 doc) =
      searchSelectors doc selectorChainFull ∧
    FetchScholar.discover_thumbnail_url (Resp.ok 200 doc) =
      searchSelectors doc selectorChainProperties ∧
    AddPreviews.discover_thumbnail_url (Resp.ok 200
        [⟨some ("og:image".data), none, some ("http://a/og.png".data)⟩,
         ⟨some ("twitter:image".data), none, some ("http://a/tw.png".data)⟩]) =
      some ("http://a/og.png".data) ∧
    FetchScholar.discover_thumbnail_url (Resp.ok 200
        [⟨some ("og:image".data), none, some ("http://a/og.png".data)⟩,
         ⟨some ("twitter:image".data), none, some ("http://a/tw.png".data)⟩]) =
      some ("http://a/og.png".data) := by
  refine ⟨?_, ?_, by decide, by decide⟩
  · cases h1 : tryProperty doc ("og:image".data) <;>
      cases h2 : tryProperty doc ("twitter:image".data) <;>
        cases h3 : tryProperty doc ("og:image:url".data) <;>
          cases h4 : tryNameAttr doc ("twitter:image".data) <;>
            cases h5 : tryNameAttr doc ("image".data) <;>
              simp [AddPreviews.discover_thumbnail_url, selectorChainFull,
                searchSelectors, selectorTry, h1, h2, h3, h4, h5]
  · cases h1 : tryProperty doc ("og:image".data) <;>
      cases h2 : tryProperty doc ("twitter:image".data) <;>
        cases h3 : tryProperty doc ("og:image:url".data) <;>
          simp [FetchScholar.discover_thumbnail_url, selectorChainProperties,
            searchSelectors, selectorTry, h1, h2, h3]

/-- Counterexample to claim C1 as stated: on a document whose only matching
tag is `<meta name="image" content="u">`, script 1's discoverer finds it via
the name fallback, but script 2's discoverer — which the claim asserts
behaves identically — returns the no-thumbnail result. -/
theorem thumbnail_name_fallback_divergence :
    AddPreviews.discover_thumbnail_url (Resp.ok 200
        [⟨none, some ("image".data), some ("u".data)⟩]) = some ("u".data) ∧
    FetchScholar.discover_thumbnail_url (Resp.ok 200
        [⟨none, some ("image".data), some ("u".data)⟩]) = none ∧
    FetchScholar.discover_thumbnail_url (Resp.ok 200
        [⟨none, some ("image".data), some ("u".data)⟩]) ≠ some ("u".data) := by
  decide

/-- The key synthesis exactly as the claim words it: lower-case the title,
strip characters outside `[a-z0-9-\s]`, collapse whitespace runs to single
hyphens, collapse repeated hyphens, truncate to 80 characters, append
`-{year}` when a (truthy) year is available. It performs no initial
surrounding-whitespace trim. -/
def claimSynthKey (t : Str) (y : Option Str) : Str :=
  let s1 := t.map pyLower
  let s2 := s1.filter FetchScholar.isSlugKeep
  let s3 := collapseRuns isPySpace '-' s2
  let s4 := collapseRuns (fun c => c = '-') '-' s3
  let s5 := s4.take 80
  match y with
  | some yv => if yv = [] then s5 else s5 ++ '-' :: yv
  | none => s5

/-- The synthesis as amended: the title is first trimmed of surrounding
whitespace, as the code's `text.strip()` does, then processed exactly as the
claim describes. -/
def specSynthKey (t : Str) (y : Option Str) : Str :=
  claimSynthKey (pyStrip t) y

/-- Claim C3 (amended): when no key can be pattern-matched out of the
citation-entry text, the Key Assigner synthesizes the key by trimming the
title of surrounding whitespace, lower-casing it, stripping characters
outside `[a-z0-9-\s]`, collapsing whitespace runs to single hyphens,
collapsing repeated hyphens, truncating to 80 characters, and appending
`-{year}` when a year is available; the synthesis is deterministic, and for
title "A Study: Of  THINGS!!" with year 2021 the key is exactly
`a-study-of-things-2021`. -/
theorem key_synthesis (b t : Str) (y : Option Str)
    (h : FetchScholar.searchKeyMatch b = none) :
    FetchScholar.parse_bibtex_key b t y = specSynthKey t y ∧
    (∀ b2 t2 y2, FetchScholar.searchKeyMatch b2 = none → t2 = t → y2 = y →
      FetchScholar.parse_bibtex_key b2 t2 y2 = FetchScholar.parse_bibtex_key b t y) ∧
    FetchScholar.parse_bibtex_key b ("A Study: Of  THINGS!!".data) (some ("2021".data)) =
      ("a-study-of-things-2021".data) := by
  refine ⟨?_, ?_, ?_⟩
  · unfold FetchScholar.parse_bibtex_key
    rw [h]
    rfl
  · intro b2 t2 y2 h2 ht hy
    subst ht; subst hy
    unfold FetchScholar.parse_bibtex_key
    rw [h, h2]
  · unfold FetchScholar.parse_bibtex_key
    rw [h]
    decide

/-- Witness for C3 (amended) at the empty citation-entry text (which the key
pattern does not match) and the claim's example title. -/
theorem key_synthesis_witness :
    FetchScholar.searchKeyMatch [] = none ∧
    (FetchScholar.parse_bibtex_key [] ("A Study: Of  THINGS!!".data) (some ("2021".data)) =
        specSynthKey ("A Study: Of  THINGS!!".data) (some ("2021".data)) ∧
     (∀ b2 t2 y2, FetchScholar.searchKeyMatch b2 = none →
        t2 = ("A Study: Of  THINGS!!".data) → y2 = some ("2021".data) →
        FetchScholar.parse_bibtex_key b2 t2 y2 =
          FetchScholar.parse_bibtex_key [] ("A Study: Of  THINGS!!".data)
            (some ("2021".data))) ∧
     FetchScholar.parse_bibtex_key [] ("A Study: Of  THINGS!!".data) (some ("2021".data)) =
       ("a-study-of-things-2021".data)) :=
  ⟨by decide, key_synthesis [] ("A Study: Of  THINGS!!".data) (some ("2021".data)) (by decide)⟩

/-- Counterexample to claim C3 as stated: for the title " a" (leading
whitespace) and no year, the code synthesizes "a" — `slugify` strips the
title first — while the claim's described pipeline, which never trims,
yields "-a". -/
theorem key_synthesis_counterexample :
    FetchScholar.searchKeyMatch [] = none ∧
    FetchScholar.parse_bibtex_key [] (" a".data) none = ("a".data) ∧
    claimSynthKey (" a".data) none = ("-a".data) ∧
    FetchScholar.parse_bibtex_key [] (" a".data) none ≠ claimSynthKey (" a".data) none := by
  decide

theorem findCloseAux_spec (ls : List Str) (k : Nat) (i : Nat)
    (hk : k < ls.length) (hkm : pyStrip (ls.getD k []) = AddPreviews.marker)
    (hbefore : ∀ m, m < k → pyStrip (ls.getD m []) ≠ AddPreviews.marker) :
    AddPreviews.findCloseAux i ls = i + k := by
  induction ls generalizing i k with
  | nil => simp at hk
  | cons l ls ih =>
    cases k with
    | zero =>
      unfold AddPreviews.findCloseAux
      rw [if_pos (by simpa using hkm)]
      omega
    | succ k =>
      have h0 : pyStrip l ≠ AddPreviews.marker := by
        have := hbefore 0 (Nat.succ_pos k)
        simpa using this
      unfold AddPreviews.findCloseAux
      rw [if_neg h0]
      have hrec := ih k (i + 1) (by simpa using hk) (by simpa using hkm)
        (fun m hm => by simpa using hbefore (m + 1) (by omega))
      rw [hrec]
      omega

/-- Claim C4 (amended): the Bibliography Reader treats a leading metadata
block as present exactly when the first line, with surrounding whitespace
stripped, equals the three-hyphen marker (the code compares
`lines[0].strip() == "---"`, not the raw line); in that case it scans
forward for the next line that strips to the marker and parses only the
lines after it; when the stripped first line is not the marker, the entire
text is parsed. -/
theorem reader_front_matter (raw l0 : Str) (rest : List Str) (k : Nat) :
    (AddPreviews.hasFront raw = false → AddPreviews.bib_text raw = raw) ∧
    (pySplitlines raw = l0 :: rest → pyStrip l0 = AddPreviews.marker →
     k < rest.length → pyStrip (rest.getD k []) = AddPreviews.marker →
     (∀ m, m < k → pyStrip (rest.getD m []) ≠ AddPreviews.marker) →
     AddPreviews.end_idx (pySplitlines raw) = 1 + k ∧
     AddPreviews.bib_text raw = joinNl (rest.drop (k + 1))) := by
  constructor
  · intro hf
    simp [AddPreviews.bib_text, hf]
  · intro hsplit hl0 hk hkm hbefore
    have hfront : AddPreviews.hasFront raw = true := by
      unfold AddPreviews.hasFront
      rw [hsplit]
      simp [hl0]
    have hend : AddPreviews.end_idx (pySplitlines raw) = 1 + k := by
      unfold AddPreviews.end_idx
      rw [hsplit]
      simpa using findCloseAux_spec rest k 1 hk hkm hbefore
    refine ⟨hend, ?_⟩
    unfold AddPreviews.bib_text
    rw [if_pos hfront, hend, hsplit]
    have harith : 1 + k + 1 = k + 1 + 1 := by omega
    rw [harith, List.drop_succ_cons]

/-- Witness for C4 (amended): one file whose stripped first line is not the
marker, and one file with front matter closed at line index 2. -/
theorem reader_front_matter_witness :
    (AddPreviews.hasFront ("x\ny".data) = false ∧
     AddPreviews.bib_text ("x\ny".data) = ("x\ny".data)) ∧
    (pySplitlines ("---\nfoo\n---\nentry".data) =
        [("---".data), ("foo".data), ("---".data), ("entry".data)] ∧
     pyStrip ("---".data) = AddPreviews.marker ∧
     (1 : Nat) < 3 ∧
     pyStrip ([("foo".data), ("---".data), ("entry".data)].getD 1 []) = AddPreviews.marker ∧
     AddPreviews.end_idx (pySplitlines ("---\nfoo\n---\nentry".data)) = 1 + 1 ∧
     AddPreviews.bib_text ("---\nfoo\n---\nentry".data) =
       joinNl ([("foo".data), ("---".data), ("entry".data)].drop 2)) :=
  ⟨⟨by decide, (reader_front_matter ("x\ny".data) [] [] 0).1 (by decide)⟩,
   by
    refine ⟨by decide, by decide, by decide, by decide, ?_⟩
    exact (reader_front_matter ("---\nfoo\n---\nentry".data) ("---".data)
        [("foo".data), ("---".data), ("entry".data)] 1).2
      (by decide) (by decide) (by decide) (by decide)
      (fun m hm => by interval_cases m; decide)⟩

/-- Counterexample to claim C4 as stated: the file " ---\nfoo\n---\nrest"
has a first line that is not exactly the three-hyphen marker (it carries a
leading space), so by the claim the entire text should be parsed as entries;
the code strips the line before comparing, treats the block as front matter,
and parses only "rest". -/
theorem reader_exact_marker_counterexample :
    (" ---".data) ≠ AddPreviews.marker ∧
    (pySplitlines (" ---\nfoo\n---\nrest".data)).getD 0 [] = (" ---".data) ∧
    AddPreviews.bib_text (" ---\nfoo\n---\nrest".data) = ("rest".data) ∧
    AddPreviews.bib_text (" ---\nfoo\n---\nrest".data) ≠ (" ---\nfoo\n---\nrest".data) := by
  decide

/-- Claim C5: for every bibliography file that begins with a metadata block,
and whatever the parse-mutate-serialize pipeline does to the bibliography
portion, the rewritten file is exactly the captured metadata block — which
is byte-for-byte the leading segment of the original file — followed by a
blank line and then the serialized entries. -/
theorem front_matter_preserved (process : Str → Str) (raw : Str)
    (h : AddPreviews.hasFront raw = true) :
    (∃ t : Str, AddPreviews.front_block raw ++ t = raw) ∧
    AddPreviews.rewriteText process raw =
      AddPreviews.front_block raw ++ '\n' :: '\n' :: process (AddPreviews.bib_text raw) := by
  constructor
  · obtain ⟨t1, ht1⟩ :=
      joinNl_take_prefix (pySplitlines raw) (AddPreviews.end_idx (pySplitlines raw) + 1)
    cases joinNl_pySplitlines raw with
    | inl hre =>
      exact ⟨t1, by rw [AddPreviews.front_block, ht1, hre]⟩
    | inr hre =>
      refine ⟨t1 ++ ['\n'], ?_⟩
      rw [AddPreviews.front_block, ← List.append_assoc, ht1, hre]
  · unfold AddPreviews.rewriteText
    rw [if_pos h]
    simp

/-- Witness for C5 on a concrete front-mattered file and the identity
pipeline. -/
theorem front_matter_preserved_witness :
    AddPreviews.hasFront ("---\nfoo: bar\n---\nentry".data) = true ∧
    ((∃ t : Str, AddPreviews.front_block ("---\nfoo: bar\n---\nentry".data) ++ t =
        ("---\nfoo: bar\n---\nentry".data)) ∧
     AddPreviews.rewriteText (fun s => s) ("---\nfoo: bar\n---\nentry".data) =
       AddPreviews.front_block ("---\nfoo: bar\n---\nentry".data) ++ '\n' :: '\n' ::
         AddPreviews.bib_text ("---\nfoo: bar\n---\nentry".data)) :=
  ⟨by decide, front_matter_preserved (fun s => s) ("---\nfoo: bar\n---\nentry".data) (by decide)⟩


theorem filter_orderedInsert_eqKey (k : Int) (b : FetchScholar.BibTuple)
    (l : List FetchScholar.BibTuple) (hb : FetchScholar._sort_key b = k) :
    (List.orderedInsert FetchScholar.yearRel b l).filter
        (fun t => decide (FetchScholar._sort_key t = k)) =
      b :: l.filter (fun t => decide (FetchScholar._sort_key t = k)) := by
  induction l with
  | nil => simp [List.orderedInsert, hb]
  | cons h t ih =>
    by_cases hr : FetchScholar.yearRel b h
    · rw [List.orderedInsert, if_pos hr]
      simp [hb]
    · have hlt : FetchScholar._sort_key h < FetchScholar._sort_key b := by
        unfold FetchScholar.yearRel at hr
        omega
      have hne : FetchScholar._sort_key h ≠ k := by omega
      rw [List.orderedInsert, if_neg hr]
      rw [List.filter_cons_of_neg (by simpa using hne),
        List.filter_cons_of_neg (by simpa using hne)]
      exact ih

theorem filter_orderedInsert_neKey (k : Int) (b : FetchScholar.BibTuple)
    (l : List FetchScholar.BibTuple) (hb : FetchScholar._sort_key b ≠ k) :
    (List.orderedInsert FetchScholar.yearRel b l).filter
        (fun t => decide (FetchScholar._sort_key t = k)) =
      l.filter (fun t => decide (FetchScholar._sort_key t = k)) := by
  induction l with
  | nil => simp [List.orderedInsert, hb]
  | cons h t ih =>
    by_cases hr : FetchScholar.yearRel b h
    · rw [List.orderedInsert, if_pos hr]
      rw [List.filter_cons_of_neg (by simpa using hb)]
    · rw [List.orderedInsert, if_neg hr]
      by_cases hh : FetchScholar._sort_key h = k
      · rw [List.filter_cons_of_pos (by simpa using hh),
          List.filter_cons_of_pos (by simpa using hh), ih]
      · rw [List.filter_cons_of_neg (by simpa using hh),
          List.filter_cons_of_neg (by simpa using hh), ih]

theorem sortEntries_filter_stable (l : List FetchScholar.BibTuple) (k : Int) :
    (FetchScholar.sortEntries l).filter (fun t => decide (FetchScholar._sort_key t = k)) =
      l.filter (fun t => decide (FetchScholar._sort_key t = k)) := by
  unfold FetchScholar.sortEntries
  induction l with
  | nil => rfl
  | cons b t ih =>
    rw [List.insertionSort]
    by_cases hb : FetchScholar._sort_key b = k
    · rw [filter_orderedInsert_eqKey k b _ hb, ih,
        List.filter_cons_of_pos (by simpa using hb)]
    · rw [filter_orderedInsert_neKey k b _ hb, ih,
        List.filter_cons_of_neg (by simpa using hb)]

/-- Claim C2: script 2 orders entries by publication year parsed as an
integer, descending (the sort key is the negated year, sorted ascending);
a missing year is stored as "0000" and a non-numeric year makes `int`
raise, so both sort with key zero, after every entry with a real
(positive-numbered) year; the sort is stable, so ties among equal or
unknown keys keep fetch order; and the concrete year list
[2020, None, 2023, 2019] comes out as [2023, 2020, 2019, None]. -/
theorem entries_sorted_by_year_desc (l : List FetchScholar.BibTuple) :
    (∀ t : FetchScholar.BibTuple, pyInt t.1 = none → FetchScholar._sort_key t = 0) ∧
    (∀ b k : Str, FetchScholar._sort_key (FetchScholar.bibTuple none b k) = 0) ∧
    (∀ (t : FetchScholar.BibTuple) (n : Int), pyInt t.1 = some n → 0 < n →
      FetchScholar._sort_key t < 0) ∧
    List.Pairwise FetchScholar.yearRel (FetchScholar.sortEntries l) ∧
    (∀ i j : Fin (FetchScholar.sortEntries l).length,
      FetchScholar._sort_key ((FetchScholar.sortEntries l).get i) < 0 →
      FetchScholar._sort_key ((FetchScholar.sortEntries l).get j) = 0 →
      (i : Nat) < (j : Nat)) ∧
    (∀ k : Int,
      (FetchScholar.sortEntries l).filter (fun t => decide (FetchScholar._sort_key t = k)) =
        l.filter (fun t => decide (FetchScholar._sort_key t = k))) ∧
    List.Perm (FetchScholar.sortEntries l) l ∧
    FetchScholar.sortEntries
        [FetchScholar.bibTuple (some ("2020".data)) ("b1".data) ("k1".data),
         FetchScholar.bibTuple none ("b2".data) ("k2".data),
         FetchScholar.bibTuple (some ("2023".data)) ("b3".data) ("k3".data),
         FetchScholar.bibTuple (some ("2019".data)) ("b4".data) ("k4".data)] =
      [FetchScholar.bibTuple (some ("2023".data)) ("b3".data) ("k3".data),
       FetchScholar.bibTuple (some ("2020".data)) ("b1".data) ("k1".data),
       FetchScholar.bibTuple (some ("2019".data)) ("b4".data) ("k4".data),
       FetchScholar.bibTuple none ("b2".data) ("k2".data)] := by
  have hsorted : List.Sorted FetchScholar.yearRel (FetchScholar.sortEntries l) :=
    List.sorted_insertionSort FetchScholar.yearRel l
  have hperm : List.Perm (FetchScholar.sortEntries l) l :=
    List.perm_insertionSort FetchScholar.yearRel l
  refine ⟨?_, ?_, ?_, hsorted, ?_, sortEntries_filter_stable l, hperm, by decide⟩
  · intro t ht
    unfold FetchScholar._sort_key
    rw [ht]
  · intro b k
    rfl
  · intro t n hn hpos
    unfold FetchScholar._sort_key
    rw [hn]
    dsimp only
    omega
  · intro i j hki hkj
    rcases lt_trichotomy (i : Nat) (j : Nat) with hlt | heq | hgt
    · exact hlt
    · exfalso
      have : i = j := Fin.ext heq
      rw [this, hkj] at hki
      omega
    · exfalso
      have hrel : FetchScholar.yearRel ((FetchScholar.sortEntries l).get j)
          ((FetchScholar.sortEntries l).get i) :=
        hsorted.rel_get_of_lt (by exact hgt)
      unfold FetchScholar.yearRel at hrel
      omega

/-- Witness for C2: the theorem applied at the claim's example list, its
key-is-zero implication discharged at the non-numeric year "n/a". -/
theorem entries_sorted_by_year_desc_witness :
    (pyInt ("n/a".data) = none ∧
     FetchScholar._sort_key (FetchScholar.bibTuple (some ("n/a".data)) ("b".data) ("k".data)) =
       0) ∧
    FetchScholar.sortEntries
        [FetchScholar.bibTuple (some ("2020".data)) ("b1".data) ("k1".data),
         FetchScholar.bibTuple none ("b2".data) ("k2".data),
         FetchScholar.bibTuple (some ("2023".data)) ("b3".data) ("k3".data),
         FetchScholar.bibTuple (some ("2019".data)) ("b4".data) ("k4".data)] =
      [FetchScholar.bibTuple (some ("2023".data)) ("b3".data) ("k3".data),
       FetchScholar.bibTuple (some ("2020".data)) ("b1".data) ("k1".data),
       FetchScholar.bibTuple (some ("2019".data)) ("b4".data) ("k4".data),
       FetchScholar.bibTuple none ("b2".data) ("k2".data)] :=
  ⟨⟨by decide,
    (entries_sorted_by_year_desc []).1
      (FetchScholar.bibTuple (some ("n/a".data)) ("b".data) ("k".data)) (by decide)⟩,
   (entries_sorted_by_year_desc
      [FetchScholar.bibTuple (some ("2020".data)) ("b1".data) ("k1".data),
       FetchScholar.bibTuple none ("b2".data) ("k2".data),
       FetchScholar.bibTuple (some ("2023".data)) ("b3".data) ("k3".data),
       FetchScholar.bibTuple (some ("2019".data)) ("b4".data) ("k4".data)]).2.2.2.2.2.2.2⟩
